import Mathlib

/-!
Verification of the I/O orchestration layer of a Windows TLS stream adapter
(`boost::wintls::stream` and its detail operations), shallowly embedded.

Conventions of the embedding:
* error codes are natural numbers, `0` meaning success, matching the
  `if (ec)` truthiness tests of `boost::system::error_code` in the source;
* the opaque SSPI drivers (`sspi_handshake`, `sspi_decrypt`, ...) are
  modelled as state machines whose successive step results are given by a
  script (`Nat → State`), since the orchestrators treat them as black boxes;
* blocking transport operations (`read_some`, `net::write`) are modelled by
  scripts of `(errorCode, byteCount)` pairs consumed in order;
* the `while` loops of the orchestrators are given explicit fuel; `none`
  means the scenario script was exhausted before the loop finished.
-/

namespace Wintls

/-- The four step results of the `sspi_handshake` driver
(`sspi_handshake::state` in the source). -/
inductive HsState where
  | dataNeeded
  | dataAvailable
  | done
  | error
deriving DecidableEq, Repr

/-- The blocking handshake driver as the orchestrator sees it: a script of
successive `handshake_()` results, a cursor into it, the latched error code
returned by `last_error()`, and the byte counts committed through
`size_read` / `size_written`. -/
structure HsDriver where
  states : Nat → HsState
  idx : Nat
  lastError : Nat
  committedReads : List Nat
  committedWrites : List Nat

/-- Embedding of the blocking orchestrator `stream::handshake(type, ec)`
(stream.hpp lines 138-169).  The loop body mirrors the source:
`while ((state = handshake_()) != done)` with a switch on `state`.
`reads` scripts `next_layer_.read_some(handshake_.in_buffer(), ec)` and
`writes` scripts `net::write(next_layer_, handshake_.out_buffer(), ec)`;
each entry is the `(ec, size)` outcome of one such blocking call, where a
successful call clears `ec` to `0`.  Returns the final `ec` and the final
driver state, or `none` when fuel or a script runs out. -/
def handshakeLoop (fuel : Nat) (d : HsDriver) (reads writes : List (Nat × Nat))
    (ec : Nat) : Option (Nat × HsDriver) :=
  match fuel with
  | 0 => none
  | fuel + 1 =>
    let st := d.states d.idx
    let d1 := { d with idx := d.idx + 1 }
    match st with
    | HsState.done => some (ec, d1)
    | HsState.dataNeeded =>
      match reads with
      | [] => none
      | (e, n) :: rs =>
        if e ≠ 0 then some (e, d1)
        else handshakeLoop fuel
          { d1 with committedReads := d1.committedReads ++ [n] } rs writes 0
    | HsState.dataAvailable =>
      match writes with
      | [] => none
      | (e, n) :: ws =>
        if e ≠ 0 then some (e, d1)
        else handshakeLoop fuel
          { d1 with committedWrites := d1.committedWrites ++ [n] } reads ws 0
    | HsState.error => some (d.lastError, d1)

/-- C2: one-step behaviour of the blocking handshake orchestrator.  Whenever
the driver reports `data_needed` the orchestrator performs one transport
read; on success it commits the byte count via `size_read` and continues the
loop with a cleared error code, and on a transport error it returns that
error.  Whenever the driver reports `data_available` it performs the
write-all of the output buffer; on success it commits via `size_written` and
continues.  When the driver reports `done` it returns success (the error
code it entered the loop with, `0`).  When the driver reports `error` it
returns the driver's latched error. -/
theorem handshake_orchestrator_steps (fuel : Nat) (d : HsDriver)
    (reads writes : List (Nat × Nat)) (e n : Nat) :
    (d.states d.idx = HsState.dataNeeded → e = 0 →
      handshakeLoop (fuel + 1) d ((e, n) :: reads) writes 0 =
        handshakeLoop fuel
          { d with idx := d.idx + 1, committedReads := d.committedReads ++ [n] }
          reads writes 0) ∧
    (d.states d.idx = HsState.dataNeeded → e ≠ 0 →
      handshakeLoop (fuel + 1) d ((e, n) :: reads) writes 0 =
        some (e, { d with idx := d.idx + 1 })) ∧
    (d.states d.idx = HsState.dataAvailable → e = 0 →
      handshakeLoop (fuel + 1) d reads ((e, n) :: writes) 0 =
        handshakeLoop fuel
          { d with idx := d.idx + 1, committedWrites := d.committedWrites ++ [n] }
          reads ((e, n) :: writes).tail 0) ∧
    (d.states d.idx = HsState.dataAvailable → e ≠ 0 →
      handshakeLoop (fuel + 1) d reads ((e, n) :: writes) 0 =
        some (e, { d with idx := d.idx + 1 })) ∧
    (d.states d.idx = HsState.done →
      handshakeLoop (fuel + 1) d reads writes 0 =
        some (0, { d with idx := d.idx + 1 })) ∧
    (d.states d.idx = HsState.error →
      handshakeLoop (fuel + 1) d reads writes 0 =
        some (d.lastError, { d with idx := d.idx + 1 })) := by
  refine ⟨?_, ?_, ?_, ?_, ?_, ?_⟩ <;> intro h1 <;>
    first
      | (intro h2; simp [handshakeLoop, h1, h2])
      | simp [handshakeLoop, h1]

/-- Instantiation of `handshake_orchestrator_steps` on concrete runs: one
successful transport read is committed and the loop continues, and a driver
reporting `error` makes the orchestrator return its latched error `42`. -/
theorem handshake_orchestrator_steps_witness :
    (handshakeLoop 1 (⟨fun _ => HsState.dataNeeded, 0, 0, [], []⟩ : HsDriver)
        [(0, 5)] [] 0 =
      handshakeLoop 0 (⟨fun _ => HsState.dataNeeded, 1, 0, [5], []⟩ : HsDriver)
        [] [] 0) ∧
    (handshakeLoop 1 (⟨fun _ => HsState.error, 0, 42, [], []⟩ : HsDriver) [] [] 0 =
      some (42, (⟨fun _ => HsState.error, 1, 42, [], []⟩ : HsDriver))) :=
  ⟨(handshake_orchestrator_steps 0 ⟨fun _ => HsState.dataNeeded, 0, 0, [], []⟩
      [] [] 0 5).1 rfl rfl,
   (handshake_orchestrator_steps 0 ⟨fun _ => HsState.error, 0, 42, [], []⟩
      [] [] 0 0).2.2.2.2.2 rfl⟩

/-- The step results of the `sspi_decrypt` driver as the blocking `read_some`
orchestrator distinguishes them: it loops on `data_needed`, checks for
`error`, and treats every other state as decrypted data being available. -/
inductive DecState where
  | dataNeeded
  | dataAvailable
  | error
deriving DecidableEq, Repr

/-- Interface that the `read_some` orchestrator uses on the decrypt driver:
`step` is `decrypt_(buffers)`, `sizeRead` is `decrypt_.size_read(n)`,
`sizeDecrypted` is the member `decrypt_.size_decrypted` and `lastError` is
`decrypt_.last_error()`. -/
structure DecDriverOps (δ : Type) where
  step : δ → DecState × δ
  sizeRead : Nat → δ → δ
  sizeDecrypted : δ → Nat
  lastError : δ → Nat

/-- Embedding of the blocking orchestrator `stream::read_some(buffers, ec)`
(stream.hpp lines 236-253): loop the driver while it reports `data_needed`,
feeding it one transport read per iteration; on a transport error return
`0` with that error; on driver `error` return `0` with `last_error()`;
otherwise return `size_decrypted`.  The result is
`(returnValue, ec, finalDriver, consumedReads)` where `consumedReads` is the
prefix of the transport-read script that was used; `none` means fuel or the
script ran out. -/
def readSomeLoop {δ : Type} (ops : DecDriverOps δ) (fuel : Nat) (d : δ)
    (reads : List (Nat × Nat)) :
    Option (Nat × Nat × δ × List (Nat × Nat)) :=
  match fuel with
  | 0 => none
  | fuel + 1 =>
    let p := ops.step d
    match p.1 with
    | DecState.dataNeeded =>
      match reads with
      | [] => none
      | (e, n) :: rs =>
        if e ≠ 0 then some (0, e, p.2, [(e, n)])
        else
          match readSomeLoop ops fuel (ops.sizeRead n p.2) rs with
          | none => none
          | some (res, ec, dF, consumed) => some (res, ec, dF, (e, n) :: consumed)
    | DecState.error => some (0, ops.lastError p.2, p.2, [])
    | DecState.dataAvailable => some (ops.sizeDecrypted p.2, 0, p.2, [])

/-- The decrypt driver as a black box, the way the orchestrator sees it: a
script of step results, the `size_decrypted` value, the latched error and
the committed read sizes. -/
structure ScriptDecrypt where
  states : Nat → DecState
  idx : Nat
  sizeDec : Nat
  lastErr : Nat
  committed : List Nat

def scriptDecOps : DecDriverOps ScriptDecrypt where
  step := fun d => (d.states d.idx, { d with idx := d.idx + 1 })
  sizeRead := fun n d => { d with committed := d.committed ++ [n] }
  sizeDecrypted := fun d => d.sizeDec
  lastError := fun d => d.lastErr

/-- The sizes of the successful transport reads in a consumed script
prefix: exactly the counts the orchestrator commits via `size_read`. -/
def okSizes (l : List (Nat × Nat)) : List Nat :=
  l.filterMap fun p => if p.1 = 0 then some p.2 else none

/-- C3: the blocking `read_some` orchestrator.  Assuming the driver latches a
nonzero error code, every terminating run satisfies: on success the returned
count is the driver's `size_decrypted`; on failure the returned count is `0`
(no partial plaintext is delivered) and the error is either the driver's
latched error or the error of the transport read that failed (the last
script entry consumed); every successful transport read's byte count is
committed to the driver via `size_read`, in order; and the reads consumed
form a prefix of the transport script. -/
theorem read_some_orchestrator (fuel : Nat) (d : ScriptDecrypt)
    (reads : List (Nat × Nat)) (res ec : Nat) (dF : ScriptDecrypt)
    (consumed : List (Nat × Nat)) (hle : d.lastErr ≠ 0)
    (h : readSomeLoop scriptDecOps fuel d reads = some (res, ec, dF, consumed)) :
    (ec = 0 → res = dF.sizeDec) ∧
    (ec ≠ 0 → res = 0 ∧
      (ec = dF.lastErr ∨ ∃ pre n, consumed = pre ++ [(ec, n)])) ∧
    dF.committed = d.committed ++ okSizes consumed ∧
    ∃ rest, reads = consumed ++ rest := by
  induction fuel generalizing d reads res ec dF consumed with
  | zero => simp [readSomeLoop] at h
  | succ fuel ih =>
    rw [readSomeLoop.eq_def] at h
    rcases hst : d.states d.idx with _ | _ | _ <;>
      simp only [scriptDecOps, hst] at h
    · rcases reads with _ | ⟨⟨e, n⟩, rs⟩
      · simp at h
      · by_cases he : e = 0
        · subst he
          simp only [ne_eq, not_true_eq_false, if_false, ite_false] at h
          rcases hrec : readSomeLoop scriptDecOps fuel
              { d with idx := d.idx + 1, committed := d.committed ++ [n] } rs with
            _ | ⟨⟨res1, ec1, dF1, consumed1⟩⟩ <;>
            simp only [scriptDecOps] at hrec <;> rw [hrec] at h
          · simp at h
          · simp only [Option.some.injEq, Prod.mk.injEq] at h
            obtain ⟨h1, h2, h3, h4⟩ := h
            subst h1; subst h2; subst h3
            obtain ⟨c1, c2, c3, rest, hrest⟩ :=
              ih { d with idx := d.idx + 1, committed := d.committed ++ [n] }
                rs res1 ec1 dF1 consumed1 hle hrec
            refine ⟨c1, ?_, ?_, ?_⟩
            · intro hne
              obtain ⟨hz, hd⟩ := c2 hne
              refine ⟨hz, ?_⟩
              rcases hd with hd | ⟨pre, m, hpre⟩
              · exact Or.inl hd
              · exact Or.inr ⟨(0, n) :: pre, m, by rw [← h4, hpre]; rfl⟩
            · rw [← h4, c3]
              simp [okSizes, List.filterMap_cons, List.append_assoc]
            · exact ⟨rest, by rw [← h4, hrest]; rfl⟩
        · simp only [if_pos he, Option.some.injEq, Prod.mk.injEq] at h
          obtain ⟨h1, h2, h3, h4⟩ := h
          subst h1; subst h2; subst h3; subst h4
          refine ⟨fun hc => absurd hc he, fun _ => ⟨rfl, Or.inr ⟨[], n, rfl⟩⟩,
            by simp [okSizes, List.filterMap, he], ⟨rs, rfl⟩⟩
    · simp only [Option.some.injEq, Prod.mk.injEq] at h
      obtain ⟨h1, h2, h3, h4⟩ := h
      subst h1; subst h2; subst h3; subst h4
      exact ⟨fun _ => rfl, fun hc => absurd rfl hc,
        by simp [okSizes], ⟨reads, rfl⟩⟩
    · simp only [Option.some.injEq, Prod.mk.injEq] at h
      obtain ⟨h1, h2, h3, h4⟩ := h
      subst h1; subst h2; subst h3; subst h4
      exact ⟨fun hc => absurd hc hle, fun _ => ⟨rfl, Or.inl rfl⟩,
        by simp [okSizes], ⟨reads, rfl⟩⟩

/-- Instantiation of `read_some_orchestrator`: a driver that immediately has
5 decrypted bytes (latched error code 7 unused) with an empty transport
script. -/
theorem read_some_orchestrator_witness :
    ((0 : Nat) = 0 →
      (5 : Nat) = (⟨fun _ => DecState.dataAvailable, 1, 5, 7, []⟩ : ScriptDecrypt).sizeDec) ∧
    ((0 : Nat) ≠ 0 → (5 : Nat) = 0 ∧
      ((0 : Nat) = (⟨fun _ => DecState.dataAvailable, 1, 5, 7, []⟩ : ScriptDecrypt).lastErr ∨
        ∃ pre n, ([] : List (Nat × Nat)) = pre ++ [(0, n)])) ∧
    (⟨fun _ => DecState.dataAvailable, 1, 5, 7, []⟩ : ScriptDecrypt).committed =
      [] ++ okSizes [] ∧
    ∃ rest, ([] : List (Nat × Nat)) = [] ++ rest :=
  read_some_orchestrator 1 ⟨fun _ => DecState.dataAvailable, 0, 5, 7, []⟩ []
    5 0 ⟨fun _ => DecState.dataAvailable, 1, 5, 7, []⟩ [] (by decide) rfl

/-- The results of the decrypt engine step (`DecryptMessage`) as the spec's
§4.1/§4.4 describe them: either more ciphertext is needed, or a record was
decrypted yielding some plaintext bytes, or a protocol error occurred. -/
inductive DecEngineResult where
  | needsData
  | record (plain : Nat)
  | fail (e : Nat)
deriving DecidableEq, Repr

/-- The decrypt driver with its observable internals, used to settle claims
about behaviour inside `sspi_decrypt` (whose source is not among the files
here): caller-buffer capacity, staged plaintext not yet delivered, an
abstract engine script with a call counter, the `size_decrypted` result,
the latched error and the committed read counts. -/
structure SpecDecrypt where
  capacity : Nat
  decryptedRemaining : Nat
  engine : Nat → DecEngineResult
  engineIdx : Nat
  engineCalls : Nat
  sizeDec : Nat
  lastErr : Nat
  committed : List Nat

/-- Modelled from the spec: the step `decrypt_(buffers)` of the missing
`sspi_decrypt` driver, following the read algorithm of section 4.4: with a
zero-capacity caller buffer it returns 0 without stepping the engine; if
staged plaintext remains it delivers `min capacity remaining` without
stepping the engine; otherwise it steps the engine once and classifies the
result. -/
def specDecStep (d : SpecDecrypt) : DecState × SpecDecrypt :=
  if d.capacity = 0 then
    (DecState.dataAvailable, { d with sizeDec := 0 })
  else if 0 < d.decryptedRemaining then
    let c := min d.capacity d.decryptedRemaining
    (DecState.dataAvailable,
      { d with sizeDec := c, decryptedRemaining := d.decryptedRemaining - c })
  else
    let d1 := { d with engineIdx := d.engineIdx + 1,
                       engineCalls := d.engineCalls + 1 }
    match d.engine d.engineIdx with
    | DecEngineResult.needsData => (DecState.dataNeeded, d1)
    | DecEngineResult.record p =>
      let c := min d.capacity p
      (DecState.dataAvailable,
        { d1 with sizeDec := c, decryptedRemaining := p - c })
    | DecEngineResult.fail e => (DecState.error, { d1 with lastErr := e })

def specDecOps : DecDriverOps SpecDecrypt where
  step := specDecStep
  sizeRead := fun n d => { d with committed := d.committed ++ [n] }
  sizeDecrypted := fun d => d.sizeDec
  lastError := fun d => d.lastErr

/-- C5: a `read_some` call whose caller buffer has zero total capacity
returns 0 with no error, does not step the decrypt engine (the engine call
counter is unchanged) and performs no transport I/O (the consumed
transport-read script is empty). -/
theorem read_some_zero_capacity (fuel : Nat) (d : SpecDecrypt)
    (reads : List (Nat × Nat)) (hcap : d.capacity = 0) :
    readSomeLoop specDecOps (fuel + 1) d reads =
      some (0, 0, { d with sizeDec := 0 }, []) ∧
    ({ d with sizeDec := 0 } : SpecDecrypt).engineCalls = d.engineCalls := by
  constructor
  · rw [readSomeLoop.eq_def]
    simp [specDecOps, specDecStep, hcap]
  · rfl

/-- Instantiation of `read_some_zero_capacity` at a concrete driver with
capacity 0 and 3 staged plaintext bytes. -/
theorem read_some_zero_capacity_witness :
    readSomeLoop specDecOps 1
        ⟨0, 3, fun _ => DecEngineResult.needsData, 0, 0, 9, 0, []⟩ [(0, 4)] =
      some (0, 0, ⟨0, 3, fun _ => DecEngineResult.needsData, 0, 0, 0, 0, []⟩, []) ∧
    (⟨0, 3, fun _ => DecEngineResult.needsData, 0, 0, 0, 0, []⟩ : SpecDecrypt).engineCalls =
      (⟨0, 3, fun _ => DecEngineResult.needsData, 0, 0, 9, 0, []⟩ : SpecDecrypt).engineCalls :=
  read_some_zero_capacity 0
    ⟨0, 3, fun _ => DecEngineResult.needsData, 0, 0, 9, 0, []⟩ [(0, 4)] rfl

/-- The outcome of one `encrypt_(buffers, ec)` call as the `write_some`
orchestrator observes it: the error code it sets, the number of plaintext
bytes consumed (its return value) and the total size of the produced
ciphertext record held in `encrypt_.buffers`. -/
structure EncOutcome where
  ec : Nat
  bytesConsumed : Nat
  ciphertextSize : Nat

/-- Embedding of the blocking orchestrator
`stream::write_some(buffers, ec)` (stream.hpp lines 329-341): invoke the
encrypt step, return 0 on its error; otherwise `net::write` the whole
ciphertext (`wr` maps the requested size to the `(ec, size)` outcome of
that write-all), return 0 on a write error; otherwise return the number of
plaintext bytes consumed.  The result also records how many times the
encrypt step ran and the sizes of the transport writes requested. -/
def writeSomeEc (enc : EncOutcome) (wr : Nat → Nat × Nat) :
    Nat × Nat × Nat × List Nat :=
  let encCalls := 1
  if enc.ec ≠ 0 then (0, enc.ec, encCalls, [])
  else
    let w := wr enc.ciphertextSize
    if w.1 ≠ 0 then (0, w.1, encCalls, [enc.ciphertextSize])
    else (enc.bytesConsumed, 0, encCalls, [enc.ciphertextSize])

/-- C4: the blocking `write_some` orchestrator invokes the encrypt step
exactly once; if the encrypt step fails it returns 0 with that error and
requests no transport write; otherwise it requests exactly one transport
write of the entire ciphertext record, and then either returns 0 with the
write error, or — on success — returns the number of plaintext bytes the
encrypt step consumed, with no error. -/
theorem write_some_orchestrator (enc : EncOutcome) (wr : Nat → Nat × Nat) :
    (writeSomeEc enc wr).2.2.1 = 1 ∧
    (enc.ec ≠ 0 →
      writeSomeEc enc wr = (0, enc.ec, 1, [])) ∧
    (enc.ec = 0 → (wr enc.ciphertextSize).1 ≠ 0 →
      writeSomeEc enc wr = (0, (wr enc.ciphertextSize).1, 1, [enc.ciphertextSize])) ∧
    (enc.ec = 0 → (wr enc.ciphertextSize).1 = 0 →
      writeSomeEc enc wr = (enc.bytesConsumed, 0, 1, [enc.ciphertextSize])) := by
  refine ⟨?_, ?_, ?_, ?_⟩
  · by_cases he : enc.ec = 0 <;> by_cases hw : (wr enc.ciphertextSize).1 = 0 <;>
      simp [writeSomeEc, he, hw]
  · intro he; simp [writeSomeEc, he]
  · intro he hw; simp [writeSomeEc, he, hw]
  · intro he hw; simp [writeSomeEc, he, hw]

/-- Instantiation of `write_some_orchestrator`: encryption consumes 9
plaintext bytes into a 31-byte record, the transport write succeeds. -/
theorem write_some_orchestrator_witness :
    (writeSomeEc ⟨0, 9, 31⟩ (fun n => (0, n))).2.2.1 = 1 ∧
    writeSomeEc ⟨0, 9, 31⟩ (fun n => (0, n)) = (9, 0, 1, [31]) :=
  ⟨(write_some_orchestrator ⟨0, 9, 31⟩ (fun n => (0, n))).1,
   (write_some_orchestrator ⟨0, 9, 31⟩ (fun n => (0, n))).2.2.2 rfl rfl⟩

/-- Embedding of the blocking `stream::shutdown(ec)` (stream.hpp lines
409-418): perform the shutdown step (`stepEc` is the error code returned by
`shutdown_()`); if it failed return that error without writing; otherwise
`net::write` the close_notify alert (`wr` is that write-all's `(ec, size)`
outcome) and, only when the write succeeded, commit the written size via
`shutdown_.size_written`.  Result: `(finalEc, writeAttempted, committed)`. -/
def shutdownEc (stepEc : Nat) (wr : Nat × Nat) : Nat × Bool × Option Nat :=
  if stepEc ≠ 0 then (stepEc, false, none)
  else if wr.1 ≠ 0 then (wr.1, true, none)
  else (0, true, some wr.2)

/-- C9: the blocking shutdown performs the shutdown step first; on its
failure that error is returned and no transport write is attempted; on its
success the alert write is attempted, a write failure is returned to the
caller, and the written size is committed to the shutdown driver exactly
when the write succeeds. -/
theorem shutdown_orchestrator (stepEc : Nat) (wr : Nat × Nat) :
    (stepEc ≠ 0 → shutdownEc stepEc wr = (stepEc, false, none)) ∧
    (stepEc = 0 → wr.1 ≠ 0 → shutdownEc stepEc wr = (wr.1, true, none)) ∧
    (stepEc = 0 → wr.1 = 0 → shutdownEc stepEc wr = (0, true, some wr.2)) := by
  refine ⟨?_, ?_, ?_⟩
  · intro hs; simp [shutdownEc, hs]
  · intro hs hw; simp [shutdownEc, hs, hw]
  · intro hs hw; simp [shutdownEc, hs, hw]

/-- Instantiation of `shutdown_orchestrator` on all three paths: a failing
shutdown step (code 3), a failing alert write (code 4), and a clean
shutdown committing the 23 written bytes. -/
theorem shutdown_orchestrator_witness :
    shutdownEc 3 (0, 23) = (3, false, none) ∧
    shutdownEc 0 (4, 0) = (4, true, none) ∧
    shutdownEc 0 (0, 23) = (0, true, some 23) :=
  ⟨(shutdown_orchestrator 3 (0, 23)).1 (by decide),
   (shutdown_orchestrator 0 (4, 0)).2.1 rfl (by decide),
   (shutdown_orchestrator 0 (0, 23)).2.2 rfl rfl⟩

/-- Embedding of the throwing variant `stream::read_some(buffers)`
(stream.hpp lines 272-279): it calls the error-code variant and throws on
error.  On the success path the source has no return statement (the
function falls off the end of a non-void function), so no return value is
determined; that is modelled by `Except.ok none`. -/
def readSomeThrowing {δ : Type} (ops : DecDriverOps δ) (fuel : Nat) (d : δ)
    (reads : List (Nat × Nat)) : Option (Except Nat (Option Nat)) :=
  match readSomeLoop ops fuel d reads with
  | none => none
  | some (_, ec, _, _) =>
    if ec ≠ 0 then some (Except.error ec) else some (Except.ok none)

/-- Embedding of the throwing variant `stream::write_some(buffers)`
(stream.hpp lines 360-367): calls the error-code variant and throws on
error; like the throwing `read_some` it has no return statement on the
success path, modelled by `Except.ok none`. -/
def writeSomeThrowing (enc : EncOutcome) (wr : Nat → Nat × Nat) :
    Except Nat (Option Nat) :=
  let r := writeSomeEc enc wr
  if r.2.1 ≠ 0 then Except.error r.2.1 else Except.ok none

/-- C1: concrete refutation.  The error-code `read_some` succeeds and
returns 5 bytes, but the throwing variant determines no return value (its
source lacks the return statement), so it does not return the byte count of
the error-code variant; likewise the error-code `write_some` consumes 9
plaintext bytes while the throwing variant determines no return value. -/
theorem throwing_variants_missing_return :
    Option.map (fun r => r.1)
        (readSomeLoop scriptDecOps 1
          (⟨fun _ => DecState.dataAvailable, 0, 5, 7, []⟩ : ScriptDecrypt) []) =
      some 5 ∧
    readSomeThrowing scriptDecOps 1
        (⟨fun _ => DecState.dataAvailable, 0, 5, 7, []⟩ : ScriptDecrypt) [] =
      some (Except.ok none) ∧
    some (Except.ok (some 5)) ≠
      (some (Except.ok none) : Option (Except Nat (Option Nat))) ∧
    (writeSomeEc ⟨0, 9, 31⟩ (fun n => (0, n))).1 = 9 ∧
    writeSomeThrowing ⟨0, 9, 31⟩ (fun n => (0, n)) = Except.ok none ∧
    (Except.ok (some 9) : Except Nat (Option Nat)) ≠ Except.ok none := by
  refine ⟨rfl, rfl, by simp, rfl, rfl, by simp⟩

/-- Observable actions of one resumption of the async handshake operation:
initiate a transport read, initiate a transport write-all, post the
continuation through the executor, or invoke the completion handler with an
error code. -/
inductive Action where
  | read
  | write
  | post
  | complete (e : Nat)
deriving DecidableEq, Repr

/-- Resume points of the stackless coroutine in `async_handshake`: initial
entry, after the read yield, after the write yield, and after the
executor-post yield. -/
inductive ResumePoint where
  | start
  | afterRead
  | afterWrite
  | afterPost
deriving DecidableEq, Repr

/-- State of the `async_handshake` operation: the handshake driver seen as
a script of `handshake_()` results with its error code latched on `error`,
plus the coroutine's own cursor, `entry_count_`, resume point, the value
`last_error()` returns, and the byte counts committed through
`size_read` / `size_written`. -/
structure AsyncHs where
  states : Nat → HsState
  errCode : Nat
  idx : Nat
  entry : Nat
  rp : ResumePoint
  lerr : Nat
  committedReads : List Nat
  committedWrites : List Nat

/-- The code after the coroutine's while loop breaks (async_handshake.hpp
lines 73-82): on the first entry (`entry_count_` not greater than 1) post
the continuation through the executor instead of completing inline;
otherwise complete directly with `handshake_.last_error()`. -/
def hsFinish (c : AsyncHs) : Action × AsyncHs :=
  if c.entry ≤ 1 then (Action.post, { c with rp := ResumePoint.afterPost })
  else (Action.complete c.lerr, c)

/-- One iteration of the coroutine's while loop (async_handshake.hpp lines
44-71): step the driver once, then either yield a transport read, yield a
transport write, or break out of the loop on `error` (latching the error)
or `done`. -/
def stepLoop (c : AsyncHs) : Action × AsyncHs :=
  let c1 := { c with idx := c.idx + 1 }
  match c.states c.idx with
  | HsState.dataNeeded => (Action.read, { c1 with rp := ResumePoint.afterRead })
  | HsState.dataAvailable => (Action.write, { c1 with rp := ResumePoint.afterWrite })
  | HsState.error => hsFinish { c1 with lerr := c.errCode }
  | HsState.done => hsFinish c1

/-- Embedding of `async_handshake::operator()(self, ec, length)`
(async_handshake.hpp lines 31-84): a nonzero transport error completes
immediately; otherwise `entry_count_` is incremented and the coroutine
re-enters at its resume point, committing the transferred length where the
source calls `size_read` / `size_written`, and the resumption after the
executor post completes with `last_error()`. -/
def invoke (c : AsyncHs) (ec len : Nat) : Action × AsyncHs :=
  if ec ≠ 0 then (Action.complete ec, c)
  else
    let c1 := { c with entry := c.entry + 1 }
    match c.rp with
    | ResumePoint.start => stepLoop c1
    | ResumePoint.afterRead =>
      stepLoop { c1 with committedReads := c1.committedReads ++ [len] }
    | ResumePoint.afterWrite =>
      stepLoop { c1 with committedWrites := c1.committedWrites ++ [len] }
    | ResumePoint.afterPost => (Action.complete c1.lerr, c1)

/-- The operation state right after `async_handshake`'s constructor ran:
nothing entered yet, no error latched. -/
def initAsync (f : Nat → HsState) (e : Nat) : AsyncHs :=
  ⟨f, e, 0, 0, ResumePoint.start, 0, [], []⟩

/-- Driving the async operation to completion: the initiating call and each
transport completion resume the operation; a posted continuation resumes it
with the captured success code; the trace of actions ends at the first
`complete`. -/
def runFrom (fuel : Nat) (c : AsyncHs) (responses : List (Nat × Nat))
    (ec len : Nat) : List Action :=
  match fuel with
  | 0 => []
  | fuel + 1 =>
    let p := invoke c ec len
    match p.1 with
    | Action.complete e => [Action.complete e]
    | Action.post => Action.post :: runFrom fuel p.2 responses 0 len
    | a =>
      match responses with
      | [] => [a]
      | (re, rn) :: rs => a :: runFrom fuel p.2 rs re rn

/-- C6: executor discipline of the async handshake.  If the driver reports
`done` or `error` on the very first entry (so no transport I/O has
occurred), the initiating call's action is a one-shot executor post — not a
completion — and the posted resumption then completes (with `0` for `done`,
with the latched error for `error`).  By contrast, any resumption after a
transport operation (`entry_count_` already positive, resume point after a
read or write yield) whose driver step reaches `done` or `error` completes
directly, without a post. -/
theorem async_handshake_executor_dispatch (f : Nat → HsState) (e : Nat)
    (c : AsyncHs) (len : Nat) :
    (f 0 = HsState.done →
      invoke (initAsync f e) 0 0 =
        (Action.post,
          { initAsync f e with idx := 1, entry := 1, rp := ResumePoint.afterPost }) ∧
      (invoke { initAsync f e with
          idx := 1, entry := 1, rp := ResumePoint.afterPost } 0 0).1 =
        Action.complete 0) ∧
    (f 0 = HsState.error →
      invoke (initAsync f e) 0 0 =
        (Action.post,
          { initAsync f e with
              idx := 1, entry := 1, rp := ResumePoint.afterPost, lerr := e }) ∧
      (invoke { initAsync f e with
          idx := 1, entry := 1, rp := ResumePoint.afterPost, lerr := e } 0 0).1 =
        Action.complete e) ∧
    (1 ≤ c.entry →
      (c.rp = ResumePoint.afterRead ∨ c.rp = ResumePoint.afterWrite) →
      (c.states c.idx = HsState.done ∨ c.states c.idx = HsState.error) →
      ∃ e1, (invoke c 0 len).1 = Action.complete e1) := by
  refine ⟨?_, ?_, ?_⟩
  · intro h0
    constructor
    · simp [invoke, initAsync, stepLoop, h0, hsFinish]
    · simp [invoke, initAsync]
  · intro h0
    constructor
    · simp [invoke, initAsync, stepLoop, h0, hsFinish]
    · simp [invoke, initAsync]
  · intro hentry hrp hst
    have hgt : ¬ c.entry + 1 ≤ 1 := by omega
    rcases hrp with hrp | hrp <;> rcases hst with hst | hst <;>
      simp [invoke, hrp, stepLoop, hst, hsFinish, hgt]

/-- Instantiation of `async_handshake_executor_dispatch`: a driver already
done at the first step leads to a post and then a completion with `0`, and
a resumption after a read whose next step is `done` completes directly. -/
theorem async_handshake_executor_dispatch_witness :
    (invoke (initAsync (fun _ => HsState.done) 0) 0 0 =
      (Action.post,
        { initAsync (fun _ => HsState.done) 0 with
            idx := 1, entry := 1, rp := ResumePoint.afterPost }) ∧
    (invoke { initAsync (fun _ => HsState.done) 0 with
        idx := 1, entry := 1, rp := ResumePoint.afterPost } 0 0).1 =
      Action.complete 0) ∧
    (∃ e1, (invoke (⟨fun _ => HsState.done, 0, 1, 1, ResumePoint.afterRead,
        0, [3], []⟩ : AsyncHs) 0 4).1 = Action.complete e1) :=
  ⟨(async_handshake_executor_dispatch (fun _ => HsState.done) 0
      (initAsync (fun _ => HsState.done) 0) 0).1 rfl,
   (async_handshake_executor_dispatch (fun _ => HsState.done) 0
      ⟨fun _ => HsState.done, 0, 1, 1, ResumePoint.afterRead, 0, [3], []⟩ 4).2.2
      (by decide) (Or.inl rfl) (Or.inl rfl)⟩

/-- C7: a resumption of the async handshake with a nonzero transport error
code completes immediately with exactly that error code, leaves the
operation state untouched (in particular the handshake driver is not
stepped again), and the remaining trace of the operation is that single
completion — the handler is invoked exactly once. -/
theorem async_handshake_transport_error (c : AsyncHs) (e len : Nat)
    (he : e ≠ 0) (responses : List (Nat × Nat)) (fuel : Nat) :
    invoke c e len = (Action.complete e, c) ∧
    runFrom (fuel + 1) c responses e len = [Action.complete e] := by
  constructor
  · simp [invoke, he]
  · rw [runFrom.eq_def]
    simp [invoke, he]

/-- Instantiation of `async_handshake_transport_error` with transport error
code 5 arriving at a coroutine suspended after a read. -/
theorem async_handshake_transport_error_witness :
    invoke (⟨fun _ => HsState.done, 0, 2, 3, ResumePoint.afterRead, 0, [1, 2],
        [4]⟩ : AsyncHs) 5 9 =
      (Action.complete 5,
        ⟨fun _ => HsState.done, 0, 2, 3, ResumePoint.afterRead, 0, [1, 2], [4]⟩) ∧
    runFrom 1 (⟨fun _ => HsState.done, 0, 2, 3, ResumePoint.afterRead, 0, [1, 2],
        [4]⟩ : AsyncHs) [(0, 7)] 5 9 = [Action.complete 5] :=
  async_handshake_transport_error
    ⟨fun _ => HsState.done, 0, 2, 3, ResumePoint.afterRead, 0, [1, 2], [4]⟩
    5 9 (by decide) [(0, 7)] 0

/-- Results of one engine `handshake_step` call as section 4.1 of the spec
describes them: the engine needs more input, has produced output, has
finished the handshake, or failed with an error code. -/
inductive HsEngineResult where
  | needsData
  | hasData
  | finished
  | fail (e : Nat)
deriving DecidableEq, Repr

/-- The externally visible state of the `sspi_handshake` driver: the state
its step function reports and the code `last_error()` returns (`0` meaning
no error). -/
structure SpecHandshake where
  st : HsState
  lerr : Nat

/-- Modelled from the spec: the stepping of the missing `sspi_handshake`
driver, following section 4.2: on `error` the driver latches the engine's
error and subsequent calls return `error` with the same code (absorbing);
re-entry after `done` returns `done` idempotently; otherwise the engine
result is classified into the four states, latching the error code on
failure. -/
def specHsStep (d : SpecHandshake) (r : HsEngineResult) : SpecHandshake :=
  match d.st with
  | HsState.error => d
  | HsState.done => d
  | _ =>
    match r with
    | HsEngineResult.needsData => { d with st := HsState.dataNeeded }
    | HsEngineResult.hasData => { d with st := HsState.dataAvailable }
    | HsEngineResult.finished => { d with st := HsState.done }
    | HsEngineResult.fail e => { st := HsState.error, lerr := e }

/-- A whole run of the handshake driver from an initial non-final state
with `last_error()` still clear, over a sequence of engine results. -/
def specHsRun (st0 : HsState) (rs : List HsEngineResult) : SpecHandshake :=
  rs.foldl specHsStep { st := st0, lerr := 0 }

/-- A latched error is only ever introduced together with the absorbing
`error` state, so outside `error` the latched code stays clear. -/
theorem specHsStep_invariant (rs : List HsEngineResult) (d : SpecHandshake)
    (hd : d.st ≠ HsState.error → d.lerr = 0) :
    (rs.foldl specHsStep d).st ≠ HsState.error →
      (rs.foldl specHsStep d).lerr = 0 := by
  induction rs generalizing d with
  | nil => exact hd
  | cons r rs ih =>
    rw [List.foldl_cons]
    refine ih (specHsStep d r) ?_
    rcases hst : d.st <;> rcases r <;>
      simp [specHsStep, hst] <;>
      exact hd (by rw [hst]; intro hc; cases hc)

/-- C8: whenever the handshake driver reports `done`, its latched error is
the no-error value `0` — the assertion `!handshake_.last_error()` on the
`done` branches holds — and the orchestrators report success there: the
blocking loop returns error code `0`, and the async operation (once past
its first entry) completes with error code `0`. -/
theorem handshake_done_implies_no_error (st0 : HsState)
    (rs : List HsEngineResult) :
    ((specHsRun st0 rs).st = HsState.done → (specHsRun st0 rs).lerr = 0) ∧
    (∀ (d : HsDriver) (fuel : Nat) (reads writes : List (Nat × Nat)),
      d.states d.idx = HsState.done →
      handshakeLoop (fuel + 1) d reads writes 0 =
        some (0, { d with idx := d.idx + 1 })) ∧
    (∀ (c : AsyncHs) (len : Nat), 1 ≤ c.entry →
      c.rp = ResumePoint.afterRead → c.states c.idx = HsState.done →
      c.lerr = 0 → (invoke c 0 len).1 = Action.complete 0) := by
  refine ⟨?_, ?_, ?_⟩
  · intro hdone
    refine specHsStep_invariant rs { st := st0, lerr := 0 } (fun _ => rfl) ?_
    rw [specHsRun] at hdone
    rw [hdone]
    intro hc; cases hc
  · intro d fuel reads writes hst
    simp [handshakeLoop, hst]
  · intro c len hentry hrp hst hlerr
    have hgt : ¬ c.entry + 1 ≤ 1 := by omega
    simp [invoke, hrp, stepLoop, hst, hsFinish, hgt, hlerr]

/-- Instantiation of `handshake_done_implies_no_error`: a run that needs
data once and then finishes ends `done` with a clear latched error. -/
theorem handshake_done_implies_no_error_witness :
    (specHsRun HsState.dataNeeded
        [HsEngineResult.needsData, HsEngineResult.finished]).lerr = 0 :=
  (handshake_done_implies_no_error HsState.dataNeeded
    [HsEngineResult.needsData, HsEngineResult.finished]).1 rfl

/-- The SSPI buffer type tag `SECBUFFER_EMPTY` (sspi.h value 0). -/
def SECBUFFER_EMPTY : Nat := 0

/-- The SSPI buffer type tag `SECBUFFER_DATA` (sspi.h value 1). -/
def SECBUFFER_DATA : Nat := 1

/-- An SSPI buffer (`sspi_buffer` wrapping a `SecBuffer`): a type tag and a
byte count; constructing it from a bare type tag leaves it empty. -/
structure SspiBuffer where
  bufferType : Nat
  cbBuffer : Nat
deriving DecidableEq, Repr

def sspiBufferOfType (t : Nat) : SspiBuffer := ⟨t, 0⟩

/-- The base class `sspi_buffer_sequence<N>` stores the array of SSPI
buffers it is constructed from. -/
structure SspiBufferSequence where
  buffers : List SspiBuffer
deriving DecidableEq, Repr

/-- Embedding of the `decrypt_buffers` constructor (decrypt_buffers.hpp
lines 17-27): a sequence of four SSPI buffers typed
`SECBUFFER_DATA, SECBUFFER_EMPTY, SECBUFFER_EMPTY, SECBUFFER_EMPTY`. -/
def decrypt_buffers : SspiBufferSequence :=
  ⟨[sspiBufferOfType SECBUFFER_DATA, sspiBufferOfType SECBUFFER_EMPTY,
    sspiBufferOfType SECBUFFER_EMPTY, sspiBufferOfType SECBUFFER_EMPTY]⟩

/-- C10: every `decrypt_buffers` object is a sequence of exactly four SSPI
buffers; the first has type `SECBUFFER_DATA` and the remaining three have
type `SECBUFFER_EMPTY`. -/
theorem decrypt_buffers_initial_state :
    decrypt_buffers.buffers.length = 4 ∧
    decrypt_buffers.buffers.map SspiBuffer.bufferType =
      [SECBUFFER_DATA, SECBUFFER_EMPTY, SECBUFFER_EMPTY, SECBUFFER_EMPTY] ∧
    decrypt_buffers.buffers.head? = some (sspiBufferOfType SECBUFFER_DATA) ∧
    ∀ b ∈ decrypt_buffers.buffers.tail, b.bufferType = SECBUFFER_EMPTY := by
  refine ⟨rfl, rfl, rfl, ?_⟩
  decide

end Wintls
